import Mathlib

/-!
Shallow embedding of the PIVY stealth-payment program (`lib.rs`) and the
yield vault program (`vault.rs`), together with proofs settling the frozen
claims about them.

Machine integers are modelled as `Nat` (for `u64`/`u128`) and `Int`
(for `i64`), with explicit range bounds.  Rust operations that can panic
under the toolchain's overflow checks (the unchecked `i64` subtraction
`now - start` and the unchecked `u128` addition `amount + yield_part`)
are modelled as `Option`-returning operations, `none` standing for the
aborted execution; `saturating_mul` is modelled exactly.  Fallible
instruction handlers return `Except`, with extra error constructors for
failures propagated from the external token program and for arithmetic
aborts.
-/

/-- Largest value of a Rust `u64`. -/
def U64_MAX : ℕ := 2 ^ 64 - 1

/-- Largest value of a Rust `u128`. -/
def U128_MAX : ℕ := 2 ^ 128 - 1

/-- Smallest value of a Rust `i64`. -/
def I64_MIN : ℤ := -(2 ^ 63)

/-- Largest value of a Rust `i64`. -/
def I64_MAX : ℤ := 2 ^ 63 - 1

/-- Rust constant `RATE_NUM: u64 = 4` (vault.rs line 7). -/
def RATE_NUM : ℕ := 4

/-- Rust constant `RATE_DEN: u64 = 100` (vault.rs line 8). -/
def RATE_DEN : ℕ := 100

/-- Rust constant `SECS_PER_YEAR: u64 = 31_536_000` (vault.rs line 9). -/
def SECS_PER_YEAR : ℕ := 31536000

/-- Rust constant `DECIMALS_SHIFT: u128 = 1_000_000_000_000` (vault.rs line 10). -/
def DECIMALS_SHIFT : ℕ := 1000000000000

/-- Rust `u128::saturating_mul`: the product, capped at `u128::MAX`. -/
def u128_saturating_mul (a b : ℕ) : ℕ := min (a * b) U128_MAX

/-- Unchecked Rust `i64` subtraction.  The result is `none` when the
mathematical difference leaves the `i64` range, which aborts the
transaction under the build's overflow checks. -/
def i64_sub (a b : ℤ) : Option ℤ :=
  if I64_MIN ≤ a - b ∧ a - b ≤ I64_MAX then some (a - b) else none

/-- Unchecked Rust `u128` addition.  The result is `none` when the
mathematical sum exceeds `u128::MAX`, which aborts the transaction under
the build's overflow checks. -/
def u128_add (a b : ℕ) : Option ℕ :=
  if a + b ≤ U128_MAX then some (a + b) else none

/-- Embedding of `fn accrued(amount: u128, start: i64, now: i64) -> u128`
(vault.rs lines 12-17):

    let dt = (now - start).max(0) as u128;
    let yield_part = amount.saturating_mul(RATE_NUM as u128)
        .saturating_mul(dt) / (RATE_DEN as u128 * SECS_PER_YEAR as u128);
    amount + yield_part

The two multiplications saturate; the subtraction `now - start` and the
final addition `amount + yield_part` are unchecked, so the function is
`Option`-valued in the embedding, `none` marking an arithmetic abort. -/
def accrued (amount : ℕ) (start now : ℤ) : Option ℕ :=
  match i64_sub now start with
  | none => none
  | some d =>
    let dt : ℕ := (max d 0).toNat
    let yield_part : ℕ :=
      u128_saturating_mul (u128_saturating_mul amount RATE_NUM) dt /
        (RATE_DEN * SECS_PER_YEAR)
    u128_add amount yield_part

/-- Error codes of the stealth program (`StealthError` in lib.rs), plus a
constructor for a failure propagated out of the external token-program
transfer CPI. -/
inductive StealthError
  | InvalidAmount
  | DestinationOwnerMismatch
  | SameAccount
  | TokenFailure
deriving DecidableEq

/-- The accounts of the stealth `withdraw` instruction that its handler
reads or writes, keys and owners modelled as opaque naturals.  The Anchor
layer has already checked `stealth_ata.owner == stealth_owner` and the
mint constraints before `handle_withdraw` runs; those fields do not
appear in the handler body, so only the fields the body uses are kept. -/
structure WithdrawAccounts where
  stealth_owner : ℕ
  stealth_ata_key : ℕ
  stealth_ata_amount : ℕ
  destination_ata_key : ℕ
  destination_ata_owner : ℕ
  destination_ata_amount : ℕ
  mint : ℕ
deriving DecidableEq

/-- Event `WithdrawEvent` (lib.rs lines 40-45). -/
structure WithdrawEvent where
  stealth_owner : ℕ
  mint : ℕ
  amount : ℕ
  destination : ℕ
deriving DecidableEq

/-- Observable outcome of a successful stealth `withdraw`: the amount the
token program moved, the two final balances, whether the source account
was closed, and the emitted event. -/
structure WithdrawOutcome where
  transferred : ℕ
  stealth_ata_final : ℕ
  destination_ata_final : ℕ
  account_closed : Bool
  event : WithdrawEvent
deriving DecidableEq

/-- The sweep-sentinel resolution in `handle_withdraw` (lib.rs 154-158):
`let amount = if args.amount == u64::MAX { balance } else { args.amount }`. -/
def resolve_amount (req balance : ℕ) : ℕ :=
  if req = U64_MAX then balance else req

/-- Embedding of `fn handle_withdraw(ctx, args)` (lib.rs lines 147-197), step by step:

1. `require!(stealth_ata.key() != destination_ata.key(), SameAccount)`;
2. resolve the sweep sentinel against the live balance;
3. `require!(amount > 0 && amount <= balance, InvalidAmount)`;
4. `require!(destination_ata.owner == stealth_owner.key(), DestinationOwnerMismatch)`;
5. token transfer (the destination credit fails on `u64` overflow);
6. reload the source balance; close the account when it reached zero;
7. emit a `WithdrawEvent` with the resolved amount. -/
def handle_withdraw (acc : WithdrawAccounts) (req : ℕ) :
    Except StealthError WithdrawOutcome :=
  if acc.stealth_ata_key = acc.destination_ata_key then
    .error .SameAccount
  else
    let balance := acc.stealth_ata_amount
    let amount := resolve_amount req balance
    if ¬ (0 < amount ∧ amount ≤ balance) then
      .error .InvalidAmount
    else if ¬ (acc.destination_ata_owner = acc.stealth_owner) then
      .error .DestinationOwnerMismatch
    else if U64_MAX < acc.destination_ata_amount + amount then
      .error .TokenFailure
    else
      let src_final := balance - amount
      .ok { transferred := amount
            stealth_ata_final := src_final
            destination_ata_final := acc.destination_ata_amount + amount
            account_closed := src_final == 0
            event := { stealth_owner := acc.stealth_owner
                       mint := acc.mint
                       amount := amount
                       destination := acc.destination_ata_key } }

/-- Record `struct Position` (vault.rs lines 19-24): owner pubkey, principal in
18-decimal scale (`u128`), and the last accrual checkpoint (`i64`). -/
structure Position where
  owner : ℕ
  amount : ℕ
  last_ts : ℤ
deriving DecidableEq

/-- The token balances a vault instruction touches, together with the
position record: the depositor's source account, the pooled vault
account, and the withdrawal destination account. -/
structure VaultAccounts where
  position : Position
  src_amount : ℕ
  vault_amount : ℕ
  dst_amount : ℕ
deriving DecidableEq

/-- Error enum `ErrorCode` of vault.rs (only `InvalidAmount`), plus a constructor
for a failure propagated from the token-program CPI and one for an
arithmetic abort of the unchecked `u128` addition. -/
inductive ErrorCode
  | InvalidAmount
  | TokenFailure
  | MathOverflow
deriving DecidableEq

/-- Embedding of `pub fn deposit(ctx, amount: u64)` (vault.rs lines 78-103):

1. `require!(amount > 0, ErrorCode::InvalidAmount)`;
2. token transfer of `amount` from `src` into `vault` (fails when the
   source balance is insufficient or the vault credit overflows `u64`);
3. `let cur = accrued(pos.amount, pos.last_ts, clock.unix_timestamp)`;
4. `pos.amount = cur + (amount as u128) * DECIMALS_SHIFT` (the addition
   is unchecked `u128` arithmetic, hence `u128_add`; the product is at
   most `(2^64-1)·10^12 < 2^128` so it cannot overflow);
5. `pos.last_ts = now; pos.owner = signer`. -/
def deposit (acc : VaultAccounts) (signer amount : ℕ) (now : ℤ) :
    Except ErrorCode VaultAccounts :=
  if ¬ 0 < amount then .error .InvalidAmount
  else if ¬ amount ≤ acc.src_amount then .error .TokenFailure
  else if U64_MAX < acc.vault_amount + amount then .error .TokenFailure
  else
    match accrued acc.position.amount acc.position.last_ts now with
    | none => .error .MathOverflow
    | some cur =>
      let deposited_scaled := amount * DECIMALS_SHIFT
      match u128_add cur deposited_scaled with
      | none => .error .MathOverflow
      | some new_amount =>
        .ok { position := { owner := signer, amount := new_amount, last_ts := now }
              src_amount := acc.src_amount - amount
              vault_amount := acc.vault_amount + amount
              dst_amount := acc.dst_amount }

/-- Embedding of `pub fn withdraw(ctx)` (vault.rs lines 105-132):

1. `let total = accrued(pos.amount, pos.last_ts, clock.unix_timestamp)`;
2. `require!(total > 0, ErrorCode::InvalidAmount)`;
3. `let transfer_amount = (total / 10u128.pow(12)) as u64` — the `as u64`
   cast keeps only the low 64 bits, hence the `% 2 ^ 64`;
4. token transfer of `transfer_amount` from `vault` to `dst` (fails when
   the pool balance is insufficient or the destination credit overflows);
5. `pos.amount = 0; pos.last_ts = now`.

The successful result pairs the new account state with the transferred
native amount. -/
def withdraw (acc : VaultAccounts) (now : ℤ) :
    Except ErrorCode (VaultAccounts × ℕ) :=
  match accrued acc.position.amount acc.position.last_ts now with
  | none => .error .MathOverflow
  | some total =>
    if ¬ 0 < total then .error .InvalidAmount
    else
      let transfer_amount := total / 10 ^ 12 % 2 ^ 64
      if ¬ transfer_amount ≤ acc.vault_amount then .error .TokenFailure
      else if U64_MAX < acc.dst_amount + transfer_amount then .error .TokenFailure
      else
        .ok ({ position := { owner := acc.position.owner
                             amount := 0
                             last_ts := now }
               src_amount := acc.src_amount
               vault_amount := acc.vault_amount - transfer_amount
               dst_amount := acc.dst_amount + transfer_amount },
             transfer_amount)

/-- Embedding of `pub fn get_balance(ctx) -> Result<u128>` (vault.rs lines 134-140):
computes the accrued total and returns it without touching any state. -/
def get_balance (acc : VaultAccounts) (now : ℤ) : Except ErrorCode ℕ :=
  match accrued acc.position.amount acc.position.last_ts now with
  | none => .error .MathOverflow
  | some bal => .ok bal

/-- Embedding of `pub fn admin_patch_timestamp(ctx, new_ts: i64)` (vault.rs 143-147):
unconditionally overwrites `last_ts`, leaving every other field alone. -/
def admin_patch_timestamp (acc : VaultAccounts) (new_ts : ℤ) : VaultAccounts :=
  { acc with position := { acc.position with last_ts := new_ts } }

/-- One invocation of the vault program: its four instructions with their
arguments and the clock reading for that transaction. -/
inductive VaultOp
  | deposit_op (signer amount : ℕ) (now : ℤ)
  | withdraw_op (now : ℤ)
  | get_balance_op (now : ℤ)
  | patch_op (new_ts : ℤ)
deriving DecidableEq

/-- Whether an operation is the vault `withdraw` instruction. -/
def is_withdraw : VaultOp → Bool
  | .withdraw_op _ => true
  | _ => false

/-- State transition of one vault instruction (a failed instruction
aborts the transaction, so no state change survives it). -/
def vault_step (acc : VaultAccounts) : VaultOp → Except ErrorCode VaultAccounts
  | .deposit_op signer amount now => deposit acc signer amount now
  | .withdraw_op now => (withdraw acc now).map Prod.fst
  | .get_balance_op now => (get_balance acc now).map fun _ => acc
  | .patch_op new_ts => .ok (admin_patch_timestamp acc new_ts)

/-- A sequence of vault instructions, each committed before the next. -/
def vault_run (acc : VaultAccounts) : List VaultOp → Except ErrorCode VaultAccounts
  | [] => .ok acc
  | op :: ops =>
    match vault_step acc op with
    | .error e => .error e
    | .ok next => vault_run next ops

/-- Concrete accounts for the C10 witness: identical source and
destination token-account keys. -/
def w10_acc : WithdrawAccounts :=
  { stealth_owner := 7, stealth_ata_key := 3, stealth_ata_amount := 50,
    destination_ata_key := 3, destination_ata_owner := 7,
    destination_ata_amount := 0, mint := 9 }

/-- Concrete accounts for the C3 counterexample: distinct accounts, a
destination owner differing from the signer, and a balance of 3. -/
def ce3_acc : WithdrawAccounts :=
  { stealth_owner := 7, stealth_ata_key := 1, stealth_ata_amount := 3,
    destination_ata_key := 2, destination_ata_owner := 42,
    destination_ata_amount := 0, mint := 9 }

/-- Concrete accounts for the C3 witness: distinct accounts, a mismatched
destination owner, and a requested amount within the balance. -/
def w3_acc : WithdrawAccounts :=
  { stealth_owner := 7, stealth_ata_key := 1, stealth_ata_amount := 8,
    destination_ata_key := 2, destination_ata_owner := 42,
    destination_ata_amount := 0, mint := 9 }

/-- Concrete accounts for the C7 counterexample: source and destination
are the same account, and the requested amount exceeds the balance. -/
def ce7_acc : WithdrawAccounts :=
  { stealth_owner := 7, stealth_ata_key := 3, stealth_ata_amount := 3,
    destination_ata_key := 3, destination_ata_owner := 7,
    destination_ata_amount := 0, mint := 9 }

/-- Concrete accounts for the C7 witness: a well-formed sweep request. -/
def w7_acc : WithdrawAccounts :=
  { stealth_owner := 7, stealth_ata_key := 1, stealth_ata_amount := 10,
    destination_ata_key := 2, destination_ata_owner := 7,
    destination_ata_amount := 4, mint := 9 }

/-- Outcome of sweeping `w7_acc` with the `u64::MAX` sentinel. -/
def w7_out : WithdrawOutcome :=
  { transferred := 10, stealth_ata_final := 0, destination_ata_final := 14,
    account_closed := true,
    event := { stealth_owner := 7, mint := 9, amount := 10, destination := 2 } }

/-- Concrete state for the C4 counterexample: a position whose accrued
total `2^104` exceeds `2^64 · 10^12`, so the `as u64` cast truncates. -/
def ce4_acc : VaultAccounts :=
  { position := { owner := 0, amount := 2 ^ 104, last_ts := 0 },
    src_amount := 0, vault_amount := U64_MAX, dst_amount := 0 }

/-- Final state of the truncating withdrawal from `ce4_acc`. -/
def ce4_fin : VaultAccounts :=
  { position := { owner := 0, amount := 0, last_ts := 0 },
    src_amount := 0, vault_amount := 16611078543767432808,
    dst_amount := 1835665529942118807 }

/-- Concrete state for the C4 witness: an ordinary position holding
three native units at the 18-decimal scale. -/
def w4_acc : VaultAccounts :=
  { position := { owner := 2, amount := 3000000000000, last_ts := 0 },
    src_amount := 0, vault_amount := 100, dst_amount := 0 }

/-- Final recipient state of the withdrawal from `w4_acc`. -/
def w4_fin : VaultAccounts :=
  { position := { owner := 2, amount := 0, last_ts := 0 },
    src_amount := 0, vault_amount := 97, dst_amount := 3 }

/-- Concrete state for the C5 witness: a dust position of 5 units at the
18-decimal scale, far below one native unit. -/
def c5_acc : VaultAccounts :=
  { position := { owner := 1, amount := 5, last_ts := 0 },
    src_amount := 0, vault_amount := 0, dst_amount := 0 }

/-- Concrete state for the C6 witness: a fresh position and a funded
source account. -/
def c6_acc : VaultAccounts :=
  { position := { owner := 1, amount := 0, last_ts := 0 },
    src_amount := 100, vault_amount := 0, dst_amount := 0 }

/-- State after depositing 5 native units into `c6_acc` at time 10. -/
def c6_fin : VaultAccounts :=
  { position := { owner := 1, amount := 5000000000000, last_ts := 10 },
    src_amount := 95, vault_amount := 5, dst_amount := 0 }

/-- Start state for the C9 witness run. -/
def w9_acc : VaultAccounts :=
  { position := { owner := 1, amount := 0, last_ts := 0 },
    src_amount := 100, vault_amount := 0, dst_amount := 0 }

/-- A withdraw-free instruction sequence for the C9 witness run. -/
def w9_ops : List VaultOp :=
  [VaultOp.patch_op 3, VaultOp.deposit_op 1 5 10, VaultOp.get_balance_op 20]

/-- Final state of the C9 witness run. -/
def w9_fin : VaultAccounts :=
  { position := { owner := 1, amount := 5000000000000, last_ts := 10 },
    src_amount := 95, vault_amount := 5, dst_amount := 0 }

/-- Any successful `accrued` result lies between its input amount and
`u128::MAX`: the checked final addition only adds a non-negative yield. -/
theorem accrued_some_bounds {a : ℕ} {s n : ℤ} {v : ℕ}
    (h : accrued a s n = some v) : a ≤ v ∧ v ≤ U128_MAX := by
  unfold accrued at h
  cases hd : i64_sub n s with
  | none => rw [hd] at h; exact absurd h (by simp)
  | some d =>
    rw [hd] at h
    simp only [u128_add] at h
    split at h
    · next hle =>
      have hv := Option.some.inj h
      exact ⟨hv ▸ Nat.le_add_right a _, hv ▸ hle⟩
    · exact absurd h (by simp)

/-- C10 (confirmed): for every requested amount and every account state,
the stealth withdraw handler fails with `SameAccount` whenever the source
and destination token accounts coincide; the check is the first thing the
handler does, so it fires before amount validation, owner validation, and
the transfer, whatever the amount (0 and `u64::MAX` included) and
whatever the balances and owners. -/
theorem withdraw_same_account (acc : WithdrawAccounts) (req : ℕ)
    (h : acc.stealth_ata_key = acc.destination_ata_key) :
    handle_withdraw acc req = .error .SameAccount := by
  simp [handle_withdraw, h]

/-- Witness for C10 at a concrete state with equal account keys. -/
theorem withdraw_same_account_witness :
    handle_withdraw w10_acc 0 = .error .SameAccount :=
  withdraw_same_account w10_acc 0 (by decide)

/-- C3 counterexample: with the nonzero requested amount 5, a balance of
3, distinct source and destination accounts, and a destination owner
differing from the stealth owner, the handler fails with `InvalidAmount`
— not `DestinationOwnerMismatch` — because the amount check precedes the
owner check. -/
theorem withdraw_dest_owner_cex :
    (5 : ℕ) ≠ 0 ∧
    ce3_acc.destination_ata_owner ≠ ce3_acc.stealth_owner ∧
    ce3_acc.stealth_ata_key ≠ ce3_acc.destination_ata_key ∧
    handle_withdraw ce3_acc 5 = .error .InvalidAmount ∧
    handle_withdraw ce3_acc 5 ≠ .error .DestinationOwnerMismatch := by
  refine ⟨by decide, by decide, by decide, by rfl, ?_⟩
  intro h
  rw [show handle_withdraw ce3_acc 5 = .error .InvalidAmount from rfl] at h
  simp at h

/-- C3 (amended): whenever the source and destination accounts differ,
the resolved amount passes the amount validation (it is positive and at
most the balance), and the destination owner differs from the stealth
owner signer, the handler fails with `DestinationOwnerMismatch`. -/
theorem withdraw_dest_owner_guard (acc : WithdrawAccounts) (req : ℕ)
    (hkey : acc.stealth_ata_key ≠ acc.destination_ata_key)
    (hpos : 0 < resolve_amount req acc.stealth_ata_amount)
    (hle : resolve_amount req acc.stealth_ata_amount ≤ acc.stealth_ata_amount)
    (hown : acc.destination_ata_owner ≠ acc.stealth_owner) :
    handle_withdraw acc req = .error .DestinationOwnerMismatch := by
  simp [handle_withdraw, hkey, hown, hpos, hle]

/-- Witness for C3 at a concrete state passing the amount check. -/
theorem withdraw_dest_owner_guard_witness :
    handle_withdraw w3_acc 5 = .error .DestinationOwnerMismatch :=
  withdraw_dest_owner_guard w3_acc 5 (by decide) (by decide) (by decide) (by decide)

/-- C7 counterexample: when the source and destination token accounts are
the same address, a requested amount of 5 against a balance of 3 — which
fails the validation `0 < a ∧ a ≤ b` — is rejected with `SameAccount`,
not with `InvalidAmount` as the claim requires for every state. -/
theorem withdraw_amount_resolution_cex :
    ¬ (0 < 5 ∧ (5 : ℕ) ≤ ce7_acc.stealth_ata_amount) ∧
    (5 : ℕ) ≠ U64_MAX ∧
    handle_withdraw ce7_acc 5 = .error .SameAccount ∧
    handle_withdraw ce7_acc 5 ≠ .error .InvalidAmount := by
  refine ⟨by decide, by decide, by rfl, ?_⟩
  intro h
  rw [show handle_withdraw ce7_acc 5 = .error .SameAccount from rfl] at h
  simp at h

/-- C7 (amended): provided the source and destination token accounts
differ, the handler resolves `u64::MAX` to the pre-call balance and any
other request to itself, fails with `InvalidAmount` exactly when the
resolved amount is zero or exceeds the balance, and on success transfers
exactly the resolved amount — never more than the balance — and emits a
`WithdrawEvent` carrying that resolved amount. -/
theorem withdraw_amount_resolution (acc : WithdrawAccounts) (req : ℕ)
    (hkey : acc.stealth_ata_key ≠ acc.destination_ata_key) :
    (¬ (0 < resolve_amount req acc.stealth_ata_amount ∧
          resolve_amount req acc.stealth_ata_amount ≤ acc.stealth_ata_amount) →
        handle_withdraw acc req = .error .InvalidAmount) ∧
    (0 < resolve_amount req acc.stealth_ata_amount ∧
        resolve_amount req acc.stealth_ata_amount ≤ acc.stealth_ata_amount →
        handle_withdraw acc req ≠ .error .InvalidAmount) ∧
    (∀ r, handle_withdraw acc req = .ok r →
        r.transferred = resolve_amount req acc.stealth_ata_amount ∧
        r.event.amount = resolve_amount req acc.stealth_ata_amount ∧
        r.transferred ≤ acc.stealth_ata_amount ∧
        (req = U64_MAX → r.transferred = acc.stealth_ata_amount)) := by
  refine ⟨?_, ?_, ?_⟩
  · intro hbad
    simp [handle_withdraw, hkey, hbad]
  · intro hgood h
    simp only [handle_withdraw, if_neg hkey, if_neg (not_not_intro hgood)] at h
    split at h
    · exact absurd (Except.error.inj h) (by decide)
    · split at h
      · exact absurd (Except.error.inj h) (by decide)
      · exact absurd h (by simp)
  · intro r h
    simp only [handle_withdraw, if_neg hkey] at h
    split at h
    · exact absurd h (by simp)
    · next hgood =>
      split at h
      · exact absurd h (by simp)
      · split at h
        · exact absurd h (by simp)
        · have hr := Except.ok.inj h
          push_neg at hgood
          refine ⟨by rw [← hr], by rw [← hr], ?_, ?_⟩
          · rw [← hr]
            exact hgood.2
          · intro hmax
            rw [← hr]
            simp [resolve_amount, hmax]

/-- Witness for C7: sweeping `w7_acc` with the `u64::MAX` sentinel
transfers exactly the pre-call balance and reports it in the event. -/
theorem withdraw_amount_resolution_witness :
    w7_out.transferred = resolve_amount U64_MAX w7_acc.stealth_ata_amount ∧
    w7_out.event.amount = resolve_amount U64_MAX w7_acc.stealth_ata_amount ∧
    w7_out.transferred ≤ w7_acc.stealth_ata_amount ∧
    (U64_MAX = U64_MAX → w7_out.transferred = w7_acc.stealth_ata_amount) :=
  (withdraw_amount_resolution w7_acc U64_MAX (by decide)).2.2 w7_out (by rfl)

/-- When the clock difference fits in `i64`, `accrued` reduces to the
checked addition of the saturating yield expression. -/
theorem accrued_in_range (a : ℕ) (s n : ℤ)
    (h1 : I64_MIN ≤ n - s) (h2 : n - s ≤ I64_MAX) :
    accrued a s n = u128_add a
      (u128_saturating_mul (u128_saturating_mul a RATE_NUM)
        ((max (n - s) 0).toNat) / (RATE_DEN * SECS_PER_YEAR)) := by
  unfold accrued i64_sub
  rw [if_pos ⟨h1, h2⟩]

/-- When no time has elapsed (or the clock ran backwards by an amount
still representable in `i64`), the yield is zero and `accrued` returns
its input unchanged. -/
theorem accrued_nonpos_dt (a : ℕ) (s n : ℤ) (ha : a ≤ U128_MAX)
    (hle : n - s ≤ 0) (hge : I64_MIN ≤ n - s) : accrued a s n = some a := by
  rw [accrued_in_range a s n hge (le_trans hle (by decide))]
  rw [max_eq_right hle]
  simp [u128_saturating_mul, u128_add, ha]

/-- C1 counterexample: at `amount = 2^127`, `start = 0`, `now = 1` the
first saturating multiplication caps `amount * 4` at `u128::MAX`, so the
returned value differs from the exact expression
`amount + amount * 4 * max(now-start,0) / (100 * 31_536_000)` the claim
states for every `u128` amount. -/
theorem accrued_exact_formula_cex :
    accrued (2 ^ 127) 0 1 ≠
      some (2 ^ 127 + 2 ^ 127 * 4 * 1 / (100 * 31536000)) := by
  decide

/-- C1 (amended): `accrued` returns the exact simple-interest expression
`amount + amount * 4 * max(now - start, 0) / (100 * 31_536_000)` with
floor division whenever the clock difference is representable in `i64`
and the product `amount * 4 * max(now - start, 0)` does not saturate at
`u128::MAX`; at larger products the saturating multiplications cap the
yield and at unrepresentable differences or an overflowing final
addition the instruction aborts. -/
theorem accrued_exact_formula (a : ℕ) (s n : ℤ) (ha : a ≤ U128_MAX)
    (h1 : I64_MIN ≤ n - s) (h2 : n - s ≤ I64_MAX)
    (hm : a * RATE_NUM * (max (n - s) 0).toNat ≤ U128_MAX) :
    accrued a s n =
      some (a + a * RATE_NUM * (max (n - s) 0).toNat /
        (RATE_DEN * SECS_PER_YEAR)) := by
  rw [accrued_in_range a s n h1 h2]
  rcases Nat.eq_zero_or_pos ((max (n - s) 0).toNat) with hdt | hdt
  · rw [hdt]
    have hz : u128_saturating_mul (u128_saturating_mul a RATE_NUM) 0 = 0 := by
      simp [u128_saturating_mul]
    rw [hz]
    simp [u128_add, ha]
  · have h4 : a * RATE_NUM ≤ U128_MAX :=
      le_trans (Nat.le_mul_of_pos_right _ hdt) hm
    have e1 : u128_saturating_mul a RATE_NUM = a * RATE_NUM :=
      min_eq_left h4
    have e2 : u128_saturating_mul (a * RATE_NUM) ((max (n - s) 0).toNat) =
        a * RATE_NUM * (max (n - s) 0).toNat := min_eq_left hm
    rw [e1, e2]
    have hale : a ≤ U128_MAX / RATE_NUM :=
      (Nat.le_div_iff_mul_le (by decide)).mpr h4
    have hyle : a * RATE_NUM * (max (n - s) 0).toNat /
        (RATE_DEN * SECS_PER_YEAR) ≤
        U128_MAX / (RATE_DEN * SECS_PER_YEAR) := Nat.div_le_div_right hm
    have hsum : a + a * RATE_NUM * (max (n - s) 0).toNat /
        (RATE_DEN * SECS_PER_YEAR) ≤ U128_MAX :=
      le_trans (Nat.add_le_add hale hyle) (by decide)
    simp [u128_add, hsum]

/-- Witness for C1: one year of interest on `10^18` internal units is
exactly 4 percent. -/
theorem accrued_exact_formula_witness :
    accrued (10 ^ 18) 0 31536000 =
      some (10 ^ 18 + 10 ^ 18 * RATE_NUM * (max ((31536000 : ℤ) - 0) 0).toNat /
        (RATE_DEN * SECS_PER_YEAR)) :=
  accrued_exact_formula (10 ^ 18) 0 31536000 (by decide) (by decide)
    (by decide) (by decide)

/-- C2 counterexample: at `amount = u128::MAX`, `start = 0`, `now = 1`
the saturating multiplications cap the yield, but the final unchecked
addition `amount + yield_part` exceeds `u128::MAX`, so the function does
not saturate there: the instruction aborts (modelled as `none`). -/
theorem accrued_no_panic_cex : accrued U128_MAX 0 1 = none := by decide

/-- C2 (amended): the two multiplications inside `accrued` saturate and
never abort, but the subtraction `now - start` and the final addition
`amount + yield_part` are unchecked; `accrued` is guaranteed to return
(no arithmetic abort) whenever the clock difference is representable in
`i64` and `amount` is at most `u128::MAX` minus the largest possible
yield `u128::MAX / (100 * 31_536_000)`. -/
theorem accrued_no_panic (a : ℕ) (s n : ℤ)
    (h1 : I64_MIN ≤ n - s) (h2 : n - s ≤ I64_MAX)
    (ha : a + U128_MAX / (RATE_DEN * SECS_PER_YEAR) ≤ U128_MAX) :
    (accrued a s n).isSome = true := by
  rw [accrued_in_range a s n h1 h2]
  have hy : u128_saturating_mul (u128_saturating_mul a RATE_NUM)
      ((max (n - s) 0).toNat) / (RATE_DEN * SECS_PER_YEAR) ≤
      U128_MAX / (RATE_DEN * SECS_PER_YEAR) :=
    Nat.div_le_div_right (min_le_right _ _)
  have hsum : a + u128_saturating_mul (u128_saturating_mul a RATE_NUM)
      ((max (n - s) 0).toNat) / (RATE_DEN * SECS_PER_YEAR) ≤ U128_MAX :=
    le_trans (Nat.add_le_add_left hy a) ha
  simp [u128_add, hsum]

/-- Witness for C2 at a bounded amount and a small clock difference. -/
theorem accrued_no_panic_witness : (accrued (10 ^ 30) 0 12345).isSome = true :=
  accrued_no_panic (10 ^ 30) 0 12345 (by decide) (by decide) (by decide)

/-- C8 counterexample: for `t1 = i64::MIN < t0 = i64::MAX` the claim
demands `accrued(5, t0, t1) = 5` (clamping), but the subtraction
`t1 - t0` leaves the `i64` range, so the instruction aborts instead of
returning 5. -/
theorem accrued_algebra_cex :
    I64_MIN < I64_MAX ∧ accrued 5 I64_MAX I64_MIN ≠ some 5 := by decide

/-- C8 (amended): `accrued(a, t, t) = a` for every `u128` amount;
`accrued(a, t0, t1) ≥ a` whenever `t0 ≤ t1`, provided the difference
`t1 - t0` is representable in `i64` and the final addition cannot
overflow (`a` at most `u128::MAX` minus the maximal yield); and
`accrued(a, t0, t1) = a` whenever `t1 < t0`, provided `t1 - t0` stays in
the `i64` range.  Outside those side conditions the instruction aborts
instead of returning. -/
theorem accrued_algebra (a : ℕ) (t0 t1 t : ℤ) (ha : a ≤ U128_MAX) :
    accrued a t t = some a ∧
    (t0 ≤ t1 → t1 - t0 ≤ I64_MAX →
      a + U128_MAX / (RATE_DEN * SECS_PER_YEAR) ≤ U128_MAX →
      a ≤ (accrued a t0 t1).getD 0 ∧ accrued a t0 t1 ≠ none) ∧
    (t1 < t0 → I64_MIN ≤ t1 - t0 → accrued a t0 t1 = some a) := by
  refine ⟨?_, ?_, ?_⟩
  · exact accrued_nonpos_dt a t t ha (by simp) (by simp [I64_MIN])
  · intro hle hrep hadd
    have h1 : I64_MIN ≤ t1 - t0 :=
      le_trans (by decide) (sub_nonneg.mpr hle)
    rw [accrued_in_range a t0 t1 h1 hrep]
    have hy : u128_saturating_mul (u128_saturating_mul a RATE_NUM)
        ((max (t1 - t0) 0).toNat) / (RATE_DEN * SECS_PER_YEAR) ≤
        U128_MAX / (RATE_DEN * SECS_PER_YEAR) :=
      Nat.div_le_div_right (min_le_right _ _)
    have hsum : a + u128_saturating_mul (u128_saturating_mul a RATE_NUM)
        ((max (t1 - t0) 0).toNat) / (RATE_DEN * SECS_PER_YEAR) ≤ U128_MAX :=
      le_trans (Nat.add_le_add_left hy a) hadd
    refine ⟨?_, ?_⟩
    · simp [u128_add, hsum]
    · simp [u128_add, hsum]
  · intro hlt hge
    exact accrued_nonpos_dt a t0 t1 ha (by omega) hge

/-- Witness for C8: zero elapsed time, forward time, and clamped
backward time at concrete inputs. -/
theorem accrued_algebra_witness :
    accrued 7 5 5 = some 7 ∧
    (7 ≤ (accrued 7 0 1000).getD 0 ∧ accrued 7 0 1000 ≠ none) ∧
    accrued 9 1000 999 = some 9 :=
  ⟨(accrued_algebra 7 0 1000 5 (by decide)).1,
   (accrued_algebra 7 0 1000 5 (by decide)).2.1 (by decide) (by decide) (by decide),
   (accrued_algebra 9 1000 999 0 (by decide)).2.2 (by decide) (by decide)⟩

/-- C4 counterexample: a position holding `2^104` internal units (about
`2·10^19` native units) withdraws successfully, but the `as u64` cast of
`total / 10^12` truncates modulo `2^64`: only 1835665529942118807 native
units leave the pool instead of the claimed
`floor(2^104 / 10^12) = 20282409603651670423`. -/
theorem vault_withdraw_spec_cex :
    withdraw ce4_acc 0 = .ok (ce4_fin, 1835665529942118807) ∧
    (2 : ℕ) ^ 104 / 10 ^ 12 ≠ 1835665529942118807 := by
  exact ⟨by rfl, by decide⟩

/-- C4 (amended): the vault withdraw fails with `InvalidAmount` exactly
when the accrued total is zero; on success it transfers
`floor(total / 10^12) mod 2^64` native units — equal to the claimed
`floor(total / 10^12)` whenever `total < 2^64 * 10^12`, but truncated by
the `as u64` cast above that — and afterwards the position's amount is 0
and its `last_ts` is `now`, with the pool debited and the destination
credited by the transferred amount. -/
theorem vault_withdraw_spec (acc : VaultAccounts) (now : ℤ) :
    (withdraw acc now = .error .InvalidAmount ↔
      accrued acc.position.amount acc.position.last_ts now = some 0) ∧
    (∀ total r,
      accrued acc.position.amount acc.position.last_ts now = some total →
      withdraw acc now = .ok r →
      0 < total ∧
      r.2 = total / 10 ^ 12 % 2 ^ 64 ∧
      (total < 2 ^ 64 * 10 ^ 12 → r.2 = total / 10 ^ 12) ∧
      r.1.position.amount = 0 ∧
      r.1.position.last_ts = now ∧
      r.1.position.owner = acc.position.owner ∧
      r.1.dst_amount = acc.dst_amount + r.2 ∧
      r.1.vault_amount = acc.vault_amount - r.2 ∧
      r.1.src_amount = acc.src_amount) := by
  constructor
  · cases hacc : accrued acc.position.amount acc.position.last_ts now with
    | none =>
      simp only [withdraw, hacc]
      constructor
      · intro h; exact absurd (Except.error.inj h) (by decide)
      · intro h; exact absurd h (by simp)
    | some total =>
      simp only [withdraw, hacc]
      by_cases ht : 0 < total
      · rw [if_neg (not_not_intro ht)]
        constructor
        · intro h
          split at h
          · exact absurd (Except.error.inj h) (by decide)
          · split at h
            · exact absurd (Except.error.inj h) (by decide)
            · exact absurd h (by simp)
        · intro h
          have := Option.some.inj h
          omega
      · rw [if_pos ht]
        constructor
        · intro _
          have hz : total = 0 := by omega
          rw [hz]
        · intro _; rfl
  · intro total r hacc hok
    simp only [withdraw, hacc] at hok
    split at hok
    · exact absurd hok (by simp)
    · next hpos =>
      split at hok
      · exact absurd hok (by simp)
      · split at hok
        · exact absurd hok (by simp)
        · have hr := Except.ok.inj hok
          refine ⟨not_not.mp hpos, ?_, ?_, ?_, ?_, ?_, ?_, ?_, ?_⟩
          · rw [← hr]
          · intro hlt
            rw [← hr]
            exact Nat.mod_eq_of_lt ((Nat.div_lt_iff_lt_mul (by norm_num)).mpr hlt)
          · rw [← hr]
          · rw [← hr]
          · rw [← hr]
          · rw [← hr]
          · rw [← hr]
          · rw [← hr]

/-- Witness for C4: withdrawing a three-native-unit position transfers
exactly 3 and zeroes the position. -/
theorem vault_withdraw_spec_witness :
    0 < 3000000000000 ∧
    (w4_fin, 3).2 = 3000000000000 / 10 ^ 12 % 2 ^ 64 ∧
    ((3000000000000 : ℕ) < 2 ^ 64 * 10 ^ 12 →
      (w4_fin, 3).2 = 3000000000000 / 10 ^ 12) ∧
    (w4_fin, 3).1.position.amount = 0 ∧
    (w4_fin, 3).1.position.last_ts = 0 ∧
    (w4_fin, 3).1.position.owner = w4_acc.position.owner ∧
    (w4_fin, 3).1.dst_amount = w4_acc.dst_amount + (w4_fin, 3).2 ∧
    (w4_fin, 3).1.vault_amount = w4_acc.vault_amount - (w4_fin, 3).2 ∧
    (w4_fin, 3).1.src_amount = w4_acc.src_amount :=
  (vault_withdraw_spec w4_acc 0).2 3000000000000 (w4_fin, 3) (by rfl) (by rfl)

/-- A successful checked `u128` addition returns the exact sum, which is
in range. -/
theorem u128_add_some {a b v : ℕ} (h : u128_add a b = some v) :
    v = a + b ∧ a + b ≤ U128_MAX := by
  unfold u128_add at h
  split at h
  · exact ⟨(Option.some.inj h).symm, by assumption⟩
  · exact absurd h (by simp)

/-- C5 (confirmed): a dust position whose accrued total lies strictly
between 0 and `10^12` passes the nonzero-total check, transfers exactly
0 native units (the floor downscale of anything below one native unit is
0), and still resets the position's amount to 0: a positive internal
balance is extinguished with nothing paid out. -/
theorem vault_withdraw_dust (acc : VaultAccounts) (now : ℤ) (total : ℕ)
    (hacc : accrued acc.position.amount acc.position.last_ts now = some total)
    (h0 : 0 < total) (hlt : total < 10 ^ 12)
    (hdst : acc.dst_amount ≤ U64_MAX) :
    withdraw acc now =
      .ok ({ acc with
             position := { acc.position with amount := 0, last_ts := now } },
           0) := by
  have hdiv : total / 10 ^ 12 % 2 ^ 64 = 0 := by
    rw [Nat.div_eq_of_lt hlt, Nat.zero_mod]
  simp only [withdraw, hacc]
  rw [if_neg (not_not_intro h0), hdiv]
  rw [if_neg (not_not_intro (Nat.zero_le acc.vault_amount))]
  rw [if_neg (not_lt.mpr (by simpa using hdst))]
  simp

/-- Witness for C5: a 5-unit dust position withdraws successfully with a
zero transfer amount. -/
theorem vault_withdraw_dust_witness :
    withdraw c5_acc 0 =
      .ok ({ c5_acc with
             position := { c5_acc.position with amount := 0, last_ts := 0 } },
           0) :=
  vault_withdraw_dust c5_acc 0 5 (by rfl) (by decide) (by decide) (by decide)

/-- C6 (confirmed): the vault deposit fails with `InvalidAmount` exactly
when the deposited amount is 0; on success the new position amount is
`accrued(old_amount, old_last_ts, now) + amount * 10^12`, `last_ts`
becomes `now`, and the owner field is set to the depositing signer
(hence unchanged on repeat deposits by the same owner), while the pool
gains and the source loses exactly `amount`. -/
theorem vault_deposit_spec (acc : VaultAccounts) (signer amount : ℕ) (now : ℤ) :
    (deposit acc signer amount now = .error .InvalidAmount ↔ amount = 0) ∧
    (∀ cur s2,
      accrued acc.position.amount acc.position.last_ts now = some cur →
      deposit acc signer amount now = .ok s2 →
      0 < amount ∧
      s2.position.amount = cur + amount * DECIMALS_SHIFT ∧
      s2.position.last_ts = now ∧
      s2.position.owner = signer ∧
      s2.vault_amount = acc.vault_amount + amount ∧
      s2.src_amount = acc.src_amount - amount ∧
      s2.dst_amount = acc.dst_amount) := by
  constructor
  · constructor
    · intro h
      by_contra h0
      have hpos : 0 < amount := Nat.pos_of_ne_zero h0
      simp only [deposit] at h
      rw [if_neg (not_not_intro hpos)] at h
      split at h
      · exact absurd (Except.error.inj h) (by decide)
      · split at h
        · exact absurd (Except.error.inj h) (by decide)
        · split at h
          · exact absurd (Except.error.inj h) (by decide)
          · split at h
            · exact absurd (Except.error.inj h) (by decide)
            · exact absurd h (by simp)
    · intro h0
      subst h0
      simp [deposit]
  · intro cur s2 hacc hok
    simp only [deposit, hacc] at hok
    split at hok
    · exact absurd hok (by simp)
    · next hpos =>
      split at hok
      · exact absurd hok (by simp)
      · split at hok
        · exact absurd hok (by simp)
        · split at hok
          · exact absurd hok (by simp)
          · next new_amount heq =>
            have hr := Except.ok.inj hok
            obtain ⟨hv, _⟩ := u128_add_some heq
            refine ⟨not_not.mp hpos, ?_, ?_, ?_, ?_, ?_, ?_⟩
            · rw [← hr]
              exact hv
            · rw [← hr]
            · rw [← hr]
            · rw [← hr]
            · rw [← hr]
            · rw [← hr]

/-- Witness for C6: depositing 5 native units into a fresh position at
time 10 scales them to `5 · 10^12` internal units. -/
theorem vault_deposit_spec_witness :
    (deposit c6_acc 1 5 10 = .error .InvalidAmount ↔ (5 : ℕ) = 0) ∧
    (0 < 5 ∧
     c6_fin.position.amount = 0 + 5 * DECIMALS_SHIFT ∧
     c6_fin.position.last_ts = 10 ∧
     c6_fin.position.owner = 1 ∧
     c6_fin.vault_amount = c6_acc.vault_amount + 5 ∧
     c6_fin.src_amount = c6_acc.src_amount - 5 ∧
     c6_fin.dst_amount = c6_acc.dst_amount) :=
  ⟨(vault_deposit_spec c6_acc 1 5 10).1,
   (vault_deposit_spec c6_acc 1 5 10).2 0 c6_fin (by rfl) (by rfl)⟩

/-- A successful deposit returns with a positive deposited amount and a
new position amount of `accrued(old) + amount * 10^12`. -/
theorem deposit_ok_amount {acc : VaultAccounts} {signer amount : ℕ} {now : ℤ}
    {s2 : VaultAccounts} (hok : deposit acc signer amount now = .ok s2) :
    0 < amount ∧
    ∃ cur, accrued acc.position.amount acc.position.last_ts now = some cur ∧
      s2.position.amount = cur + amount * DECIMALS_SHIFT := by
  simp only [deposit] at hok
  split at hok
  · exact absurd hok (by simp)
  · next hpos =>
    split at hok
    · exact absurd hok (by simp)
    · split at hok
      · exact absurd hok (by simp)
      · split at hok
        · exact absurd hok (by simp)
        · next cur hacc =>
          split at hok
          · exact absurd hok (by simp)
          · next new_amount heq =>
            have hr := Except.ok.inj hok
            obtain ⟨hv, _⟩ := u128_add_some heq
            exact ⟨not_not.mp hpos, cur, hacc, by rw [← hr]; exact hv⟩

/-- C9 (confirmed): among the vault instructions, `deposit` strictly
increases the position's amount, `withdraw` sets it to exactly 0,
`admin_patch_timestamp` leaves it unchanged (it only overwrites
`last_ts`), and `get_balance` — the only other instruction — leaves the
whole state unchanged; consequently every single step either is a
completed withdrawal ending at 0 or does not decrease the amount, a
nonzero amount reaches 0 only through a withdrawal, and along every
successful withdraw-free instruction sequence the amount is
non-decreasing. -/
theorem position_amount_monotone :
    (∀ acc signer amount now s2, deposit acc signer amount now = .ok s2 →
        acc.position.amount < s2.position.amount) ∧
    (∀ acc now r, withdraw acc now = .ok r → r.1.position.amount = 0) ∧
    (∀ acc new_ts,
        (admin_patch_timestamp acc new_ts).position.amount =
          acc.position.amount) ∧
    (∀ acc op s2, vault_step acc op = .ok s2 →
        (is_withdraw op = true ∧ s2.position.amount = 0) ∨
        acc.position.amount ≤ s2.position.amount) ∧
    (∀ acc op s2, vault_step acc op = .ok s2 → s2.position.amount = 0 →
        acc.position.amount ≠ 0 → is_withdraw op = true) ∧
    (∀ acc ops s2, (∀ op ∈ ops, is_withdraw op = false) →
        vault_run acc ops = .ok s2 →
        acc.position.amount ≤ s2.position.amount) := by
  have hdep : ∀ acc signer amount now s2,
      deposit acc signer amount now = .ok s2 →
      acc.position.amount < s2.position.amount := by
    intro acc signer amount now s2 hok
    obtain ⟨hpos, cur, hacc, hamt⟩ := deposit_ok_amount hok
    have hcur := (accrued_some_bounds hacc).1
    have hshift : 0 < amount * DECIMALS_SHIFT :=
      Nat.mul_pos hpos (by decide)
    omega
  have hwd : ∀ acc now r, withdraw acc now = .ok r →
      r.1.position.amount = 0 := by
    intro acc now r hok
    simp only [withdraw] at hok
    split at hok
    · exact absurd hok (by simp)
    · split at hok
      · exact absurd hok (by simp)
      · split at hok
        · exact absurd hok (by simp)
        · split at hok
          · exact absurd hok (by simp)
          · have hr := Except.ok.inj hok
            rw [← hr]
  have hpatch : ∀ acc new_ts,
      (admin_patch_timestamp acc new_ts).position.amount =
        acc.position.amount := fun _ _ => rfl
  have hstep : ∀ acc op s2, vault_step acc op = .ok s2 →
      (is_withdraw op = true ∧ s2.position.amount = 0) ∨
      acc.position.amount ≤ s2.position.amount := by
    intro acc op s2 hok
    cases op with
    | deposit_op signer amount now =>
      exact Or.inr (le_of_lt (hdep acc signer amount now s2 hok))
    | withdraw_op now =>
      left
      simp only [vault_step] at hok
      cases hw : withdraw acc now with
      | error e => rw [hw] at hok; exact absurd hok (by simp [Except.map])
      | ok r =>
        rw [hw] at hok
        have : r.1 = s2 := Except.ok.inj hok
        exact ⟨rfl, this ▸ hwd acc now r hw⟩
    | get_balance_op now =>
      simp only [vault_step] at hok
      cases hg : get_balance acc now with
      | error e => rw [hg] at hok; exact absurd hok (by simp [Except.map])
      | ok b =>
        rw [hg] at hok
        have : acc = s2 := Except.ok.inj hok
        exact Or.inr (this ▸ le_refl _)
    | patch_op new_ts =>
      simp only [vault_step] at hok
      have : admin_patch_timestamp acc new_ts = s2 := Except.ok.inj hok
      exact Or.inr (le_of_eq (this ▸ (hpatch acc new_ts).symm))
  have hexact : ∀ acc op s2, vault_step acc op = .ok s2 →
      s2.position.amount = 0 → acc.position.amount ≠ 0 →
      is_withdraw op = true := by
    intro acc op s2 hok hz hnz
    rcases hstep acc op s2 hok with ⟨hw, _⟩ | hle
    · exact hw
    · exact absurd (Nat.le_zero.mp (hz ▸ hle)) hnz
  refine ⟨hdep, hwd, hpatch, hstep, hexact, ?_⟩
  intro acc ops
  induction ops generalizing acc with
  | nil =>
    intro s2 _ hok
    exact le_of_eq (congrArg (fun st => st.position.amount)
      (Except.ok.inj hok))
  | cons op ops ih =>
    intro s2 hnw hok
    simp only [vault_run] at hok
    cases hstep2 : vault_step acc op with
    | error e => rw [hstep2] at hok; exact absurd hok (by simp)
    | ok next =>
      rw [hstep2] at hok
      rcases hstep acc op next hstep2 with ⟨hw, _⟩ | hle
      · exact absurd hw (by simp [hnw op (List.mem_cons_self op ops)])
      · exact le_trans hle (ih next s2
          (fun o ho => hnw o (List.mem_cons_of_mem op ho)) hok)

/-- Witness for C9: a concrete withdraw-free run (patch, deposit,
balance query) never decreases the position amount. -/
theorem position_amount_monotone_witness :
    w9_acc.position.amount ≤ w9_fin.position.amount :=
  position_amount_monotone.2.2.2.2.2 w9_acc w9_ops w9_fin (by decide) (by rfl)
